import Mathlib

/-!
Verification development for the meeting-summary repository.

The definitions below are a shallow embedding of the Python sources
`ai_service_adapter.py` and `context_optimizer.py`:

* Python strings are Lean `String`s; the Python substring test
  `needle in hay` is `subStr needle hay`.
* Python `str.lower()` is modelled as a character-wise lowering
  (`pyLower`); every keyword the code matches after lowering is a
  Chinese string, which is a fixed point of both Python's `lower`
  and the character-wise model.
* Python `str.split` on a newline is `pyLines` (the empty string
  yields one empty line, as in Python).
* An adapter's `generate_summary` either returns a document or raises;
  we model it as `Option SummaryDocument` (`none` = the call raised).
* `generate_summary_with_fallback` additionally returns the trace of
  adapter names whose `generate_summary` was invoked, in call order,
  so that claims about adapters never being consulted are expressible.
  A raised `RuntimeError` is `Except.error` carrying the message.
-/

/-- Bool test: the first char list is a prefix of the second. -/
def strStartsWith : List Char → List Char → Bool
  | [], _ => true
  | _ :: _, [] => false
  | c :: cs, d :: ds => c = d && strStartsWith cs ds

/-- Bool test: the first char list occurs contiguously inside the second
(Python's `needle in hay` on strings). -/
def strContainsAux : List Char → List Char → Bool
  | needle, [] => strStartsWith needle []
  | needle, c :: rest => strStartsWith needle (c :: rest) || strContainsAux needle rest

/-- Python's substring test `needle in hay`. -/
def subStr (needle hay : String) : Bool :=
  strContainsAux needle.data hay.data

/-- Character-wise model of Python's `str.lower()`. -/
def pyLower (s : String) : String :=
  String.mk (s.data.map Char.toLower)

/-- Python's `s.split` at a newline character, on char lists:
`n` separators yield `n+1` pieces; the empty string yields `[[]]`. -/
def pySplitNlAux : List Char → List (List Char)
  | [] => [[]]
  | c :: rest =>
    match pySplitNlAux rest with
    | [] => [[]]
    | h :: t => if c = '\n' then [] :: h :: t else (c :: h) :: t

/-- Python's `transcript.split` at a newline, as a list of strings. -/
def pyLines (s : String) : List String :=
  (pySplitNlAux s.data).map String.mk

theorem pySplitNlAux_ne_nil (l : List Char) : pySplitNlAux l ≠ [] := by
  cases l with
  | nil => simp [pySplitNlAux]
  | cons c rest =>
    simp only [pySplitNlAux]
    cases h : pySplitNlAux rest with
    | nil => simp
    | cons h t =>
      by_cases hc : c = '\n' <;> simp [hc]

theorem pyLines_ne_nil (s : String) : pyLines s ≠ [] := by
  simp [pyLines, pySplitNlAux_ne_nil]

/-- A non-string Python value carries only its truthiness in this model;
testing `"x" in v` on it raises `TypeError`. -/
inductive PyVal where
  | str : String → PyVal
  | nonstr : Bool → PyVal
deriving DecidableEq

/-- `key_points` entry of a `SummaryDocument`; `importance` and
`category` are `none` when the JSON object lacks the key. -/
structure KeyPoint where
  topic : String
  content : String
  participants : List String
  timestamp : String
  importance : Option String
  category : Option String
deriving DecidableEq

/-- `decisions` entry; `urgency` is `none` when the key is absent. -/
structure Decision where
  content : String
  responsible : String
  deadline : String
  impact : String
  urgency : Option String
deriving DecidableEq

/-- `action_items` entry; the deadline may be any JSON value, hence `PyVal`. -/
structure ActionItem where
  task : String
  assignee : String
  deadline : PyVal
  priority : Option String
  deliverables : String
deriving DecidableEq

/-- `risks` entry. -/
structure RiskItem where
  description : String
  severity : String
  mitigation : String
deriving DecidableEq

/-- `opportunities` entry. -/
structure OpportunityItem where
  description : String
  potential : String
  next_steps : String
deriving DecidableEq

/-- The structured summary dictionary produced by the adapters and
mutated by the context optimizer's post-processing pass.  The three
`Option` fields model dictionary keys that may be absent. -/
structure SummaryDocument where
  title : String
  overview : String
  key_points : List KeyPoint
  decisions : List Decision
  action_items : List ActionItem
  risks : List RiskItem
  opportunities : List OpportunityItem
  industry : Option String
  meeting_type : Option String
  key_decisions : Option (List Decision)
deriving DecidableEq

/-- `OpenAIAdapter._create_fallback_summary`: first 5 lines become
key points, other sections empty. -/
def create_fallback_summary (transcript : String) : SummaryDocument :=
  let lines := (pyLines transcript).take 5
  { title := "会议摘要（OpenAI降级版）"
    overview := "会议包含" ++ toString lines.length ++ "个主要讨论点"
    key_points := lines.enum.map (fun p =>
      { topic := "讨论点" ++ toString (p.1 + 1)
        content := p.2
        participants := ["未知"]
        timestamp := "未知"
        importance := none
        category := none })
    decisions := []
    action_items := []
    risks := []
    opportunities := []
    industry := none
    meeting_type := none
    key_decisions := none }

/-- `LocalModelAdapter._create_local_fallback_summary`: first 3 lines. -/
def create_local_fallback_summary (transcript : String) : SummaryDocument :=
  let lines := (pyLines transcript).take 3
  { title := "会议摘要（本地模型版）"
    overview := "基于本地模型生成的会议摘要"
    key_points := lines.enum.map (fun p =>
      { topic := "要点" ++ toString (p.1 + 1)
        content := p.2
        participants := ["未知"]
        timestamp := "未知"
        importance := none
        category := none })
    decisions := []
    action_items := []
    risks := []
    opportunities := []
    industry := none
    meeting_type := none
    key_decisions := none }

/-- `BaiduAIAdapter._create_baidu_fallback_summary`: first 4 lines. -/
def create_baidu_fallback_summary (transcript : String) : SummaryDocument :=
  let lines := (pyLines transcript).take 4
  { title := "会议摘要（百度AI版）"
    overview := "基于百度文心一言生成的会议摘要"
    key_points := lines.enum.map (fun p =>
      { topic := "关键讨论" ++ toString (p.1 + 1)
        content := p.2
        participants := ["未知"]
        timestamp := "未知"
        importance := none
        category := none })
    decisions := []
    action_items := []
    risks := []
    opportunities := []
    industry := none
    meeting_type := none
    key_decisions := none }

/-- One registered backend adapter: its `is_available()` answer and its
`generate_summary` behaviour (`none` means the call raises). -/
structure Adapter where
  available : Bool
  gen : String → String → Option SummaryDocument

/-- Python dict lookup `self.adapters[name]` / `name in self.adapters`. -/
def lookupAdapter : List (String × Adapter) → String → Option Adapter
  | [], _ => none
  | (n, a) :: rest, name => if n = name then some a else lookupAdapter rest name

/-- `AIServiceManager`: registry, designated primary, fallback order. -/
structure AIServiceManager where
  adapters : List (String × Adapter)
  current_adapter : Option String
  fallback_order : List String

/-- The fixed message of the `RuntimeError` raised on total exhaustion. -/
def exhaustMsg : String := "所有AI适配器都不可用"

/-- The fallback loop of `generate_summary_with_fallback` (lines 346-358):
walk the order, skip names missing from the registry and unavailable
adapters, return the first normal result, keep walking past a raise;
raise the fixed exhaustion error at the end.  The second component is
the trace of names whose `generate_summary` was invoked. -/
def tryFallbacks (reg : List (String × Adapter)) (t pr : String) :
    List String → Except String SummaryDocument × List String
  | [] => (Except.error exhaustMsg, [])
  | name :: rest =>
    match lookupAdapter reg name with
    | none => tryFallbacks reg t pr rest
    | some a =>
      if a.available then
        match a.gen t pr with
        | some doc => (Except.ok doc, [name])
        | none =>
          let r := tryFallbacks reg t pr rest
          (r.1, name :: r.2)
      else tryFallbacks reg t pr rest

/-- `AIServiceManager.generate_summary_with_fallback` (lines 333-358),
with the trace of invoked adapter names as second component. -/
def generate_summary_with_fallback (m : AIServiceManager) (t pr : String) :
    Except String SummaryDocument × List String :=
  match m.current_adapter with
  | some p =>
    match lookupAdapter m.adapters p with
    | some a =>
      if a.available then
        match a.gen t pr with
        | some doc => (Except.ok doc, [p])
        | none =>
          let r := tryFallbacks m.adapters t pr m.fallback_order
          (r.1, p :: r.2)
      else tryFallbacks m.adapters t pr m.fallback_order
    | none => tryFallbacks m.adapters t pr m.fallback_order
  | none => tryFallbacks m.adapters t pr m.fallback_order

/-- A name yields no usable result in this round: it is missing from
the registry, or its adapter is unavailable, or its call raises. -/
def adapterFails (reg : List (String × Adapter)) (t pr : String) (name : String) : Bool :=
  match lookupAdapter reg name with
  | none => true
  | some a => !a.available || (a.gen t pr).isNone

/-- `ContextOptimizer.industry_keywords` (lines 32-37). -/
def industry_keywords (industry : String) : Option (List String) :=
  if industry = "tech" then
    some ["敏捷开发", "迭代", "MVP", "技术栈", "架构", "部署", "测试", "上线"]
  else if industry = "finance" then
    some ["ROI", "预算", "成本", "收益", "风险", "投资", "回报率", "现金流"]
  else if industry = "manufacturing" then
    some ["产能", "供应链", "质量控制", "成本优化", "生产效率", "设备"]
  else if industry = "healthcare" then
    some ["合规", "临床试验", "监管", "安全性", "有效性", "FDA"]
  else none

/-- One entry of `ContextOptimizer.meeting_templates`. -/
structure MeetingTemplate where
  focus_areas : List String
  decision_patterns : List String
  action_patterns : List String
deriving DecidableEq

/-- `ContextOptimizer.meeting_templates` (lines 40-56). -/
def meeting_templates (name : String) : Option MeetingTemplate :=
  if name = "project_review" then
    some ⟨["进度", "风险", "资源", "下一步计划"],
          ["批准", "同意", "决定", "确认"],
          ["负责", "完成", "提交", "跟进"]⟩
  else if name = "weekly_meeting" then
    some ⟨["本周工作", "下周计划", "问题", "协调"],
          ["安排", "调整", "协调", "确认"],
          ["完成", "跟进", "汇报", "处理"]⟩
  else if name = "strategic_planning" then
    some ⟨["战略", "目标", "方向", "投资"],
          ["决定", "确定", "批准", "通过"],
          ["制定", "调研", "分析", "提交"]⟩
  else none

/-- `MeetingContext` (dataclass, lines 16-24); the optional historical
context plays no role in the claims and is omitted. -/
structure MeetingContext where
  meeting_type : String
  industry : String
  participants : List String
  duration : Nat
  keywords : List String
deriving DecidableEq

/-- `ContextOptimizer._detect_meeting_type` (lines 178-194). -/
def detect_meeting_type (transcript : String) : String :=
  let tl := pyLower transcript
  if (["项目", "进度", "里程碑", "交付", "延期"].any fun w => subStr w tl) then
    "project_review"
  else if (["本周", "下周", "例会", "日常工作"].any fun w => subStr w tl) then
    "weekly_meeting"
  else if (["战略", "规划", "目标", "投资", "方向"].any fun w => subStr w tl) then
    "strategic_planning"
  else
    "general_meeting"

/-- Model of Python's regex word character `\w` for the character
ranges this repository actually uses: ASCII alphanumerics, the
underscore, and CJK unified ideographs. -/
def isWordChar (c : Char) : Bool :=
  c.isAlphanum || c = '_' || (0x4E00 ≤ c.toNat && c.toNat ≤ 0x9FFF)

/-- Maximal runs of word characters, i.e.
`re.findall` of a word-boundary-delimited word pattern. -/
def findWordsAux : List Char → List (List Char)
  | [] => []
  | c :: rest =>
    let ws := findWordsAux rest
    if isWordChar c then
      match rest, ws with
      | r :: _, w :: ws' => if isWordChar r then (c :: w) :: ws' else [c] :: ws
      | _, _ => [c] :: ws
    else ws

/-- The token list of `re.findall` in `_extract_keywords` (line 225). -/
def pyFindWords (s : String) : List String :=
  (findWordsAux s.data).map String.mk

/-- One step of Python's `word_freq[word] = word_freq.get(word, 0) + 1`
on a dict kept as an insertion-ordered association list. -/
def addWord : List (String × Nat) → String → List (String × Nat)
  | [], w => [(w, 1)]
  | (x, n) :: rest, w =>
    if x = w then (x, n + 1) :: rest else (x, n) :: addWord rest w

/-- Stable insertion for a descending sort by count: `x` goes after
every earlier entry whose count is at least as large, exactly the
order Python's stable `sorted(..., reverse=True)` produces. -/
def insertDesc (x : String × Nat) : List (String × Nat) → List (String × Nat)
  | [] => [x]
  | y :: ys => if x.2 ≤ y.2 then y :: insertDesc x ys else x :: y :: ys

/-- Stable descending sort by count (Python line 233). -/
def sortDesc (l : List (String × Nat)) : List (String × Nat) :=
  l.foldr insertDesc []

/-- `ContextOptimizer._extract_keywords` (lines 222-243): count tokens
longer than 2 characters, take the 20 most frequent, prepend industry
vocabulary words found verbatim in the transcript, keep 15. -/
def extract_keywords (transcript : String) (industry : String) : List String :=
  let words := pyFindWords transcript
  let word_freq := words.foldl (fun m w => if 2 < w.length then addWord m w else m) []
  let keywords := ((sortDesc word_freq).take 20).map Prod.fst
  let keywords :=
    match industry_keywords industry with
    | some industry_words =>
      industry_words.foldl
        (fun (ks : List String) (w : String) =>
          if subStr w transcript && !(ks.contains w) then w :: ks else ks)
        keywords
    | none => keywords
  keywords.take 15

/-- Per-key-point step of
`ContextOptimizer._adjust_priority_by_meeting_type` (lines 276-290). -/
def adjustKeyPoint (mt : String) (p : KeyPoint) : KeyPoint :=
  if mt = "project_review" then
    if (["风险", "延期", "阻塞"].any fun w => subStr w p.content) then
      { p with importance := some "high" }
    else p
  else if mt = "strategic_planning" then
    if (["投资", "战略", "方向"].any fun w => subStr w p.content) then
      { p with importance := some "high" }
    else p
  else p

/-- `ContextOptimizer._adjust_priority_by_meeting_type` over the document. -/
def adjust_priority_by_meeting_type (s : SummaryDocument) (mt : String) : SummaryDocument :=
  { s with key_points := s.key_points.map (adjustKeyPoint mt) }

/-- Per-action-item step of `ContextOptimizer._add_time_sensitivity`
(lines 292-311).  A falsy deadline is skipped; a truthy string goes
through the keyword ladder; a truthy non-string raises `TypeError`
inside the `try`, which the bare `except` maps to priority medium. -/
def addTimeSensitivityItem (a : ActionItem) : ActionItem :=
  match a.deadline with
  | PyVal.str d =>
    if d = "" then a
    else if subStr "本周" d || subStr "明天" d || subStr "今天" d then
      { a with priority := some "high" }
    else if subStr "下周" d || subStr "月底" d then
      { a with priority := some "medium" }
    else
      { a with priority := some "low" }
  | PyVal.nonstr truthy =>
    if truthy then { a with priority := some "medium" } else a

/-- `ContextOptimizer._add_time_sensitivity` over the document. -/
def add_time_sensitivity (s : SummaryDocument) : SummaryDocument :=
  { s with action_items := s.action_items.map addTimeSensitivityItem }

/-- The fixed high-impact vocabulary of `_identify_key_decisions` (line 330). -/
def high_impact_words : List String :=
  ["批准", "同意", "决定", "确定", "通过", "投资", "预算"]

/-- The `importance_score` computed for one decision content in
`_identify_key_decisions` (lines 321-332): +2 for a decision-pattern
keyword of the meeting type, +1 for a high-impact word. -/
def decisionScore (mt : String) (content : String) : Nat :=
  (match meeting_templates mt with
   | some tpl => if (tpl.decision_patterns.any fun p => subStr p content) then 2 else 0
   | none => 0)
  + (if (high_impact_words.any fun w => subStr w content) then 1 else 0)

/-- Urgency tagging of one decision (lines 334-341). -/
def scoreDecision (mt : String) (d : Decision) : Decision :=
  let n := decisionScore mt d.content
  if 2 ≤ n then { d with urgency := some "high" }
  else if 1 ≤ n then { d with urgency := some "medium" }
  else { d with urgency := some "low" }

/-- The loop of `_identify_key_decisions`: returns the urgency-tagged
decision list and the accumulated `key_decisions` list (before the
final truncation to 3). -/
def identifyKeyDecisionsAux (mt : String) : List Decision → List Decision × List Decision
  | [] => ([], [])
  | d :: rest =>
    let d' := scoreDecision mt d
    let r := identifyKeyDecisionsAux mt rest
    (d' :: r.1, if 2 ≤ decisionScore mt d.content then d' :: r.2 else r.2)

/-- `ContextOptimizer._identify_key_decisions` (lines 313-347). -/
def identify_key_decisions (s : SummaryDocument) (mt : String) : SummaryDocument :=
  let r := identifyKeyDecisionsAux mt s.decisions
  match r.2 with
  | [] => { s with decisions := r.1 }
  | _ => { s with decisions := r.1, key_decisions := some (r.2.take 3) }

/-- `ContextOptimizer.post_process_summary` (lines 159-176): stamp
industry and meeting type, then the three re-scoring passes in order. -/
def post_process_summary (s : SummaryDocument) (ctx : MeetingContext) : SummaryDocument :=
  let s1 := { s with industry := some ctx.industry, meeting_type := some ctx.meeting_type }
  let s2 := adjust_priority_by_meeting_type s1 ctx.meeting_type
  let s3 := add_time_sensitivity s2
  identify_key_decisions s3 ctx.meeting_type

theorem tryFallbacks_all_fail (reg : List (String × Adapter)) (t pr : String)
    (l : List String) (h : ∀ n ∈ l, adapterFails reg t pr n = true) :
    (tryFallbacks reg t pr l).1 = Except.error exhaustMsg := by
  induction l with
  | nil => rfl
  | cons name rest ih =>
    have hname := h name (List.mem_cons_self name rest)
    have hrest : ∀ n ∈ rest, adapterFails reg t pr n = true :=
      fun n hn => h n (List.mem_cons_of_mem name hn)
    unfold adapterFails at hname
    cases hl : lookupAdapter reg name with
    | none => simpa [tryFallbacks, hl] using ih hrest
    | some a =>
      rw [hl] at hname
      cases hav : a.available with
      | false => simpa [tryFallbacks, hl, hav] using ih hrest
      | true =>
        simp only [hav, Bool.not_true, Bool.false_or] at hname
        have hgen : a.gen t pr = none := Option.isNone_iff_eq_none.mp hname
        simpa [tryFallbacks, hl, hav, hgen] using ih hrest

theorem tryFallbacks_append_all_fail (reg : List (String × Adapter)) (t pr : String)
    (l1 l2 : List String) (h : ∀ n ∈ l1, adapterFails reg t pr n = true) :
    tryFallbacks reg t pr (l1 ++ l2)
      = ((tryFallbacks reg t pr l2).1,
         (tryFallbacks reg t pr l1).2 ++ (tryFallbacks reg t pr l2).2) := by
  induction l1 with
  | nil => simp [tryFallbacks]
  | cons name rest ih =>
    have hname := h name (List.mem_cons_self name rest)
    have hrest : ∀ n ∈ rest, adapterFails reg t pr n = true :=
      fun n hn => h n (List.mem_cons_of_mem name hn)
    unfold adapterFails at hname
    cases hl : lookupAdapter reg name with
    | none => simpa [tryFallbacks, hl] using ih hrest
    | some a =>
      rw [hl] at hname
      cases hav : a.available with
      | false => simpa [tryFallbacks, hl, hav] using ih hrest
      | true =>
        simp only [hav, Bool.not_true, Bool.false_or] at hname
        have hgen : a.gen t pr = none := Option.isNone_iff_eq_none.mp hname
        simp [tryFallbacks, hl, hav, hgen, ih hrest]

/-- C1: if a primary adapter is designated, registered and available and
its `generate_summary` returns normally, `generate_summary_with_fallback`
returns exactly that result, and the invocation trace is just the primary:
no adapter from the fallback order is invoked, whatever the order holds. -/
theorem c1_primary_short_circuits (m : AIServiceManager) (t pr p : String)
    (a : Adapter) (doc : SummaryDocument)
    (hp : m.current_adapter = some p)
    (hreg : lookupAdapter m.adapters p = some a)
    (hav : a.available = true)
    (hgen : a.gen t pr = some doc) :
    generate_summary_with_fallback m t pr = (Except.ok doc, [p]) := by
  simp [generate_summary_with_fallback, hp, hreg, hav, hgen]

/-- A fixed document used by the concrete witnesses below. -/
def demoDoc : SummaryDocument := create_fallback_summary "demo"

/-- An available adapter that returns `demoDoc`. -/
def okAdapter : Adapter := ⟨true, fun _ _ => some demoDoc⟩

/-- An available adapter whose `generate_summary` raises. -/
def raisingAdapter : Adapter := ⟨true, fun _ _ => none⟩

/-- An unavailable adapter. -/
def downAdapter : Adapter := ⟨false, fun _ _ => some demoDoc⟩

/-- Manager with a healthy primary and a fallback that would raise. -/
def mgrPrimaryOk : AIServiceManager :=
  ⟨[("openai", okAdapter), ("local_model", raisingAdapter)], some "openai", ["local_model"]⟩

theorem c1_primary_short_circuits_witness :
    generate_summary_with_fallback mgrPrimaryOk "t" "pr" = (Except.ok demoDoc, ["openai"]) :=
  c1_primary_short_circuits mgrPrimaryOk "t" "pr" "openai" okAdapter demoDoc rfl rfl rfl rfl

/-- Manager with three registered adapters, all unavailable. -/
def mgrAllDown : AIServiceManager :=
  ⟨[("openai", downAdapter), ("local_model", downAdapter), ("baidu", downAdapter)],
   some "openai", ["local_model", "baidu"]⟩

/-- C2 counterexample: with three registered adapters all unavailable,
the raised error's message is the fixed string `所有AI适配器都不可用`;
it does not mention (let alone enumerate) any of the three adapter
names, contrary to the claim. -/
theorem c2_counterexample_fixed_message :
    (generate_summary_with_fallback mgrAllDown "t" "pr").1 = Except.error exhaustMsg
    ∧ subStr "openai" exhaustMsg = false
    ∧ subStr "local_model" exhaustMsg = false
    ∧ subStr "baidu" exhaustMsg = false := by
  refine ⟨rfl, by decide, by decide, by decide⟩

/-- C2 (amended): when the primary and every fallback candidate is
missing, unavailable or raises, `generate_summary_with_fallback` raises
the `RuntimeError` carrying the fixed message `所有AI适配器都不可用`
rather than returning a document; the message carries no per-adapter
detail. -/
theorem c2_exhaustion_error (m : AIServiceManager) (t pr : String)
    (hp : ∀ p, m.current_adapter = some p → adapterFails m.adapters t pr p = true)
    (hf : ∀ name ∈ m.fallback_order, adapterFails m.adapters t pr name = true) :
    (generate_summary_with_fallback m t pr).1 = Except.error exhaustMsg := by
  cases hc : m.current_adapter with
  | none =>
    simpa [generate_summary_with_fallback, hc] using
      tryFallbacks_all_fail m.adapters t pr m.fallback_order hf
  | some p =>
    have hpf := hp p hc
    unfold adapterFails at hpf
    cases hl : lookupAdapter m.adapters p with
    | none =>
      simpa [generate_summary_with_fallback, hc, hl] using
        tryFallbacks_all_fail m.adapters t pr m.fallback_order hf
    | some a =>
      rw [hl] at hpf
      cases hav : a.available with
      | false =>
        simpa [generate_summary_with_fallback, hc, hl, hav] using
          tryFallbacks_all_fail m.adapters t pr m.fallback_order hf
      | true =>
        simp only [hav, Bool.not_true, Bool.false_or] at hpf
        have hgen : a.gen t pr = none := Option.isNone_iff_eq_none.mp hpf
        simpa [generate_summary_with_fallback, hc, hl, hav, hgen] using
          tryFallbacks_all_fail m.adapters t pr m.fallback_order hf

theorem c2_exhaustion_error_witness :
    (generate_summary_with_fallback mgrAllDown "t" "pr").1 = Except.error exhaustMsg :=
  c2_exhaustion_error mgrAllDown "t" "pr"
    (by intro p h; injection h with h; subst h; rfl)
    (by decide)

/-- C3: the fallback walk skips names missing from the registry without
error, skips unavailable adapters, returns the first available
registered fallback whose call returns normally, and walks on past a
fallback that raises; and whenever the primary is absent, unregistered,
unavailable, or raised, `generate_summary_with_fallback` is exactly
this walk over the configured order. -/
theorem c3_fallback_walk (reg : List (String × Adapter)) (t pr name : String)
    (rest : List String) :
    (lookupAdapter reg name = none →
      tryFallbacks reg t pr (name :: rest) = tryFallbacks reg t pr rest)
  ∧ (∀ a, lookupAdapter reg name = some a → a.available = false →
      tryFallbacks reg t pr (name :: rest) = tryFallbacks reg t pr rest)
  ∧ (∀ a doc, lookupAdapter reg name = some a → a.available = true →
      a.gen t pr = some doc →
      tryFallbacks reg t pr (name :: rest) = (Except.ok doc, [name]))
  ∧ (∀ a, lookupAdapter reg name = some a → a.available = true → a.gen t pr = none →
      tryFallbacks reg t pr (name :: rest)
        = ((tryFallbacks reg t pr rest).1, name :: (tryFallbacks reg t pr rest).2))
  ∧ (∀ m : AIServiceManager, m.adapters = reg →
      (m.current_adapter = none →
        generate_summary_with_fallback m t pr = tryFallbacks reg t pr m.fallback_order)
    ∧ (∀ p, m.current_adapter = some p → lookupAdapter reg p = none →
        generate_summary_with_fallback m t pr = tryFallbacks reg t pr m.fallback_order)
    ∧ (∀ p a, m.current_adapter = some p → lookupAdapter reg p = some a →
        a.available = false →
        generate_summary_with_fallback m t pr = tryFallbacks reg t pr m.fallback_order)
    ∧ (∀ p a, m.current_adapter = some p → lookupAdapter reg p = some a →
        a.available = true → a.gen t pr = none →
        generate_summary_with_fallback m t pr
          = ((tryFallbacks reg t pr m.fallback_order).1,
             p :: (tryFallbacks reg t pr m.fallback_order).2))) := by
  refine ⟨?_, ?_, ?_, ?_, ?_⟩
  · intro h; simp [tryFallbacks, h]
  · intro a h hav; simp [tryFallbacks, h, hav]
  · intro a doc h hav hgen; simp [tryFallbacks, h, hav, hgen]
  · intro a h hav hgen; simp [tryFallbacks, h, hav, hgen]
  · intro m hm
    subst hm
    refine ⟨?_, ?_, ?_, ?_⟩
    · intro h; simp [generate_summary_with_fallback, h]
    · intro p h hl; simp [generate_summary_with_fallback, h, hl]
    · intro p a h hl hav; simp [generate_summary_with_fallback, h, hl, hav]
    · intro p a h hl hav hgen; simp [generate_summary_with_fallback, h, hl, hav, hgen]

/-- Registry used by the C3 witness: only `local_model` is registered. -/
def regOneRaising : List (String × Adapter) := [("local_model", raisingAdapter)]

theorem c3_fallback_walk_witness :
    tryFallbacks regOneRaising "t" "pr" ["ghost", "local_model"]
      = tryFallbacks regOneRaising "t" "pr" ["local_model"] :=
  (c3_fallback_walk regOneRaising "t" "pr" "ghost" ["local_model"]).1 rfl

/-- C9: when the primary's name also appears in the fallback order and
the primary's call raised, the walk does not exclude that name: after
the (failing) names before it, the very same adapter is probed again
and invoked a second time, before any later fallback name is tried.
The trace lists the primary twice. -/
theorem c9_primary_retried_in_fallback (reg : List (String × Adapter))
    (t pr p : String) (a : Adapter) (l1 l2 : List String)
    (hreg : lookupAdapter reg p = some a)
    (hav : a.available = true)
    (hgen : a.gen t pr = none)
    (hfail : ∀ n ∈ l1, adapterFails reg t pr n = true) :
    generate_summary_with_fallback ⟨reg, some p, l1 ++ p :: l2⟩ t pr
      = ((tryFallbacks reg t pr l2).1,
         p :: ((tryFallbacks reg t pr l1).2 ++ p :: (tryFallbacks reg t pr l2).2)) := by
  have h2 := tryFallbacks_append_all_fail reg t pr l1 (p :: l2) hfail
  have h3 : tryFallbacks reg t pr (p :: l2)
      = ((tryFallbacks reg t pr l2).1, p :: (tryFallbacks reg t pr l2).2) := by
    simp [tryFallbacks, hreg, hav, hgen]
  simp [generate_summary_with_fallback, hreg, hav, hgen, h2, h3]

/-- Manager whose raising primary `p` also heads the fallback order. -/
def mgrPrimaryInFallback : AIServiceManager :=
  ⟨[("p", raisingAdapter)], some "p", ["p"]⟩

theorem c9_primary_retried_in_fallback_witness :
    generate_summary_with_fallback mgrPrimaryInFallback "t" "pr"
      = (Except.error exhaustMsg, ["p", "p"]) := by
  have h := c9_primary_retried_in_fallback [("p", raisingAdapter)] "t" "pr" "p"
    raisingAdapter [] [] rfl rfl rfl (by intro n hn; cases hn)
  simpa [mgrPrimaryInFallback, tryFallbacks] using h

theorem addWord_keys {P : String → Prop} (w : String) (hw : P w) :
    ∀ m : List (String × Nat), (∀ p ∈ m, P p.1) → ∀ q ∈ addWord m w, P q.1 := by
  intro m
  induction m with
  | nil =>
    intro _ q hq
    simp [addWord] at hq
    simp [hq, hw]
  | cons x rest ih =>
    obtain ⟨x1, x2⟩ := x
    intro hm q hq
    by_cases hxw : x1 = w
    · simp [addWord, hxw] at hq
      rcases hq with hq | hq
      · simp [hq, hxw, hw]
      · exact hm q (List.mem_cons_of_mem _ hq)
    · simp [addWord, hxw] at hq
      rcases hq with hq | hq
      · have := hm (x1, x2) (List.mem_cons_self _ _)
        simpa [hq] using this
      · exact ih (fun p hp => hm p (List.mem_cons_of_mem _ hp)) q hq

theorem freqFold_keys (ws : List String) :
    ∀ acc : List (String × Nat), (∀ p ∈ acc, 2 < p.1.length) →
      ∀ q ∈ ws.foldl (fun m w => if 2 < w.length then addWord m w else m) acc,
        2 < q.1.length := by
  induction ws with
  | nil =>
    intro acc hacc q hq
    simpa using hacc q hq
  | cons w ws' ih =>
    intro acc hacc q hq
    simp only [List.foldl_cons] at hq
    by_cases hw : 2 < w.length
    · rw [if_pos hw] at hq
      exact ih (addWord acc w) (@addWord_keys (fun s => 2 < s.length) w hw acc hacc) q hq
    · rw [if_neg hw] at hq
      exact ih acc hacc q hq

theorem mem_insertDesc (x q : String × Nat) :
    ∀ l, q ∈ insertDesc x l → q = x ∨ q ∈ l := by
  intro l
  induction l with
  | nil =>
    intro h
    simp [insertDesc] at h
    exact Or.inl h
  | cons y ys ih =>
    intro h
    by_cases hc : x.2 ≤ y.2
    · simp [insertDesc, hc] at h
      rcases h with h | h
      · simp [h]
      · rcases ih h with h' | h'
        · exact Or.inl h'
        · simp [h']
    · simp [insertDesc, hc] at h
      rcases h with h | h | h
      · exact Or.inl h
      · simp [h]
      · simp [h]

theorem mem_sortDesc (q : String × Nat) : ∀ l, q ∈ sortDesc l → q ∈ l := by
  intro l
  induction l with
  | nil => simp [sortDesc]
  | cons x xs ih =>
    intro h
    have hrw : sortDesc (x :: xs) = insertDesc x (sortDesc xs) := rfl
    rw [hrw] at h
    rcases mem_insertDesc x q (sortDesc xs) h with h' | h'
    · simp [h']
    · exact List.mem_cons_of_mem _ (ih h')

theorem mem_industry_fold (tr : String) :
    ∀ (iw : List String) (acc : List String) (w : String),
      w ∈ iw.foldl (fun (ks : List String) (u : String) =>
        if subStr u tr && !(ks.contains u) then u :: ks else ks) acc →
      w ∈ acc ∨ w ∈ iw := by
  intro iw
  induction iw with
  | nil =>
    intro acc w h
    exact Or.inl h
  | cons u iw' ih =>
    intro acc w h
    simp only [List.foldl_cons] at h
    rcases ih _ w h with h' | h'
    · by_cases hc : (subStr u tr && !(acc.contains u)) = true
      · rw [if_pos hc] at h'
        rcases List.mem_cons.mp h' with h'' | h''
        · simp [h'']
        · exact Or.inl h''
      · rw [if_neg hc] at h'
        exact Or.inl h'
    · exact Or.inr (List.mem_cons_of_mem _ h')

theorem base_keywords_long (t w : String)
    (h : w ∈ ((sortDesc ((pyFindWords t).foldl
        (fun m u => if 2 < u.length then addWord m u else m) [])).take 20).map Prod.fst) :
    2 < w.length := by
  obtain ⟨q, hq, hq1⟩ := List.mem_map.mp h
  have h2 := List.mem_of_mem_take hq
  have h3 := mem_sortDesc q _ h2
  have h4 := freqFold_keys (pyFindWords t) [] (by simp) q h3
  rwa [hq1] at h4

/-- C4 counterexample: the tech industry vocabulary term `迭代` has
length 2, appears verbatim in the transcript `迭代`, and is returned
by `_extract_keywords`; the extraction result therefore can contain a
token of length 2, contrary to the claim. -/
theorem c4_counterexample_short_industry_term :
    "迭代" ∈ extract_keywords "迭代" "tech" ∧ String.length "迭代" ≤ 2 := by
  decide

/-- C4 (amended): the extraction result has at most 15 entries, and
tokens of length at most 2 are discarded during frequency counting, so
every entry of length at most 2 can only be an industry vocabulary
term that was prepended after the frequency stage. -/
theorem c4_keyword_extraction (t ind : String) :
    (extract_keywords t ind).length ≤ 15
  ∧ ∀ w ∈ extract_keywords t ind, w.length ≤ 2 → w ∈ (industry_keywords ind).getD [] := by
  constructor
  · exact List.length_take_le 15 _
  · intro w hw hlen
    have hw2 := List.mem_of_mem_take hw
    unfold extract_keywords at hw2
    cases hik : industry_keywords ind with
    | none =>
      rw [hik] at hw2
      have := base_keywords_long t w hw2
      omega
    | some iw =>
      rw [hik] at hw2
      rcases mem_industry_fold t iw _ w hw2 with h' | h'
      · have := base_keywords_long t w h'
        omega
      · simpa [hik] using h'

theorem c4_keyword_extraction_witness :
    "迭代" ∈ (industry_keywords "tech").getD [] :=
  (c4_keyword_extraction "迭代" "tech").2 "迭代" (by decide) (by decide)

theorem identifyKeyDecisionsAux_eq (mt : String) :
    ∀ l : List Decision,
      identifyKeyDecisionsAux mt l
        = (l.map (scoreDecision mt),
           (l.filter fun d => 2 ≤ decisionScore mt d.content).map (scoreDecision mt)) := by
  intro l
  induction l with
  | nil => rfl
  | cons d rest ih =>
    by_cases h : 2 ≤ decisionScore mt d.content
    · simp [identifyKeyDecisionsAux, ih, List.filter_cons, h]
    · simp [identifyKeyDecisionsAux, ih, List.filter_cons, h]

theorem identify_key_decisions_eq (s : SummaryDocument) (mt : String) :
    identify_key_decisions s mt
      = if (s.decisions.filter fun d => 2 ≤ decisionScore mt d.content) = []
        then { s with decisions := s.decisions.map (scoreDecision mt) }
        else { s with
                decisions := s.decisions.map (scoreDecision mt)
                key_decisions := some (((s.decisions.filter fun d =>
                  2 ≤ decisionScore mt d.content).map (scoreDecision mt)).take 3) } := by
  unfold identify_key_decisions
  rw [identifyKeyDecisionsAux_eq]
  rcases hf : s.decisions.filter (fun d => 2 ≤ decisionScore mt d.content) with _ | ⟨d0, l0⟩
  · simp [hf]
  · simp [hf]

/-- C5: the decision pass tags every decision's urgency from its
integer score (+2 for a meeting-type decision-pattern match, +1 for a
high-impact word) — score at least 2 gives high, exactly 1 gives
medium, 0 gives low; `key_decisions` becomes the first at most 3
decisions scoring at least 2, in original order, and is left untouched
when none qualifies.  The scenario content `我们决定批准该预算` scores
3 under `strategic_planning`. -/
theorem c5_decision_scoring (s : SummaryDocument) (mt : String) :
    ((identify_key_decisions s mt).decisions = s.decisions.map (scoreDecision mt))
  ∧ ((identify_key_decisions s mt).key_decisions
      = if (s.decisions.filter fun d => 2 ≤ decisionScore mt d.content) = []
        then s.key_decisions
        else some (((s.decisions.filter fun d => 2 ≤ decisionScore mt d.content).map
            (scoreDecision mt)).take 3))
  ∧ (∀ d : Decision,
      (2 ≤ decisionScore mt d.content → (scoreDecision mt d).urgency = some "high")
    ∧ (decisionScore mt d.content = 1 → (scoreDecision mt d).urgency = some "medium")
    ∧ (decisionScore mt d.content = 0 → (scoreDecision mt d).urgency = some "low"))
  ∧ decisionScore "strategic_planning" "我们决定批准该预算" = 3 := by
  refine ⟨?_, ?_, ?_, by decide⟩
  · rw [identify_key_decisions_eq]
    split <;> rfl
  · rw [identify_key_decisions_eq]
    split <;> rfl
  · intro d
    refine ⟨?_, ?_, ?_⟩
    · intro h; simp [scoreDecision, h]
    · intro h; simp [scoreDecision, h]
    · intro h; simp [scoreDecision, h]

/-- A decision carrying the end-to-end scenario content. -/
def exampleDecision : Decision := ⟨"我们决定批准该预算", "", "", "", none⟩

/-- A summary holding just the scenario decision. -/
def exampleSummary : SummaryDocument := { demoDoc with decisions := [exampleDecision] }

theorem c5_decision_scoring_witness :
    (scoreDecision "strategic_planning" exampleDecision).urgency = some "high"
  ∧ (identify_key_decisions exampleSummary "strategic_planning").key_decisions
      = some [scoreDecision "strategic_planning" exampleDecision] := by
  constructor
  · exact ((c5_decision_scoring exampleSummary "strategic_planning").2.2.1
      exampleDecision).1 (by decide)
  · rw [(c5_decision_scoring exampleSummary "strategic_planning").2.1]
    decide

/-- C6 counterexample: the OpenAI family's degraded `overview` is not a
fixed marker string — it varies with the number of transcript lines. -/
theorem c6_counterexample_overview_not_fixed :
    (create_fallback_summary "x").overview ≠ (create_fallback_summary "a\nb").overview := by
  decide

/-- C6 (amended): each degradation template returns, for every input
(including the empty string and text without newlines), a structurally
complete document: key point contents are exactly the first N transcript
lines (5 OpenAI, 3 local, 4 Baidu) and at least one key point always
exists; decisions, action items, risks and opportunities are empty; the
title is the family's fixed degraded marker; the overview is fixed for
the local and Baidu families, while the OpenAI overview reports the
number of lines used. -/
theorem c6_degradation_templates (t : String) :
    ((create_fallback_summary t).decisions = []
      ∧ (create_fallback_summary t).action_items = []
      ∧ (create_fallback_summary t).risks = []
      ∧ (create_fallback_summary t).opportunities = []
      ∧ (create_fallback_summary t).title = "会议摘要（OpenAI降级版）"
      ∧ (create_fallback_summary t).key_points.map KeyPoint.content = (pyLines t).take 5
      ∧ 1 ≤ (create_fallback_summary t).key_points.length
      ∧ (create_fallback_summary t).overview
          = "会议包含" ++ toString ((pyLines t).take 5).length ++ "个主要讨论点")
  ∧ ((create_local_fallback_summary t).decisions = []
      ∧ (create_local_fallback_summary t).action_items = []
      ∧ (create_local_fallback_summary t).risks = []
      ∧ (create_local_fallback_summary t).opportunities = []
      ∧ (create_local_fallback_summary t).title = "会议摘要（本地模型版）"
      ∧ (create_local_fallback_summary t).overview = "基于本地模型生成的会议摘要"
      ∧ (create_local_fallback_summary t).key_points.map KeyPoint.content
          = (pyLines t).take 3
      ∧ 1 ≤ (create_local_fallback_summary t).key_points.length)
  ∧ ((create_baidu_fallback_summary t).decisions = []
      ∧ (create_baidu_fallback_summary t).action_items = []
      ∧ (create_baidu_fallback_summary t).risks = []
      ∧ (create_baidu_fallback_summary t).opportunities = []
      ∧ (create_baidu_fallback_summary t).title = "会议摘要（百度AI版）"
      ∧ (create_baidu_fallback_summary t).overview = "基于百度文心一言生成的会议摘要"
      ∧ (create_baidu_fallback_summary t).key_points.map KeyPoint.content
          = (pyLines t).take 4
      ∧ 1 ≤ (create_baidu_fallback_summary t).key_points.length) := by
  have hpos : 0 < (pyLines t).length := List.length_pos.mpr (pyLines_ne_nil t)
  refine ⟨⟨rfl, rfl, rfl, rfl, rfl, ?_, ?_, rfl⟩,
          ⟨rfl, rfl, rfl, rfl, rfl, rfl, ?_, ?_⟩,
          ⟨rfl, rfl, rfl, rfl, rfl, rfl, ?_, ?_⟩⟩
  · show (((pyLines t).take 5).enum.map _).map KeyPoint.content = (pyLines t).take 5
    rw [List.map_map]
    exact List.enum_map_snd _
  · show 1 ≤ (((pyLines t).take 5).enum.map _).length
    simp [List.length_take]
    omega
  · show (((pyLines t).take 3).enum.map _).map KeyPoint.content = (pyLines t).take 3
    rw [List.map_map]
    exact List.enum_map_snd _
  · show 1 ≤ (((pyLines t).take 3).enum.map _).length
    simp [List.length_take]
    omega
  · show (((pyLines t).take 4).enum.map _).map KeyPoint.content = (pyLines t).take 4
    rw [List.map_map]
    exact List.enum_map_snd _
  · show 1 ≤ (((pyLines t).take 4).enum.map _).length
    simp [List.length_take]
    omega

/-- C7: the time-sensitivity pass maps each action item's priority from
its deadline: a deadline string containing 本周/明天/今天 gives high,
otherwise one containing 下周/月底 gives medium, any other non-empty
string gives low, the empty string leaves the item untouched, and a
truthy deadline whose inspection raises is caught and set to medium. -/
theorem c7_time_sensitivity (s : SummaryDocument) (a : ActionItem) :
    ((add_time_sensitivity s).action_items = s.action_items.map addTimeSensitivityItem)
  ∧ (∀ d : String, a.deadline = PyVal.str d →
      ((subStr "本周" d || subStr "明天" d || subStr "今天" d) = true →
        (addTimeSensitivityItem a).priority = some "high")
    ∧ ((subStr "本周" d || subStr "明天" d || subStr "今天" d) = false →
        (subStr "下周" d || subStr "月底" d) = true →
        (addTimeSensitivityItem a).priority = some "medium")
    ∧ (d ≠ "" → (subStr "本周" d || subStr "明天" d || subStr "今天" d) = false →
        (subStr "下周" d || subStr "月底" d) = false →
        (addTimeSensitivityItem a).priority = some "low")
    ∧ (d = "" → addTimeSensitivityItem a = a))
  ∧ (∀ b : Bool, a.deadline = PyVal.nonstr b → b = true →
      (addTimeSensitivityItem a).priority = some "medium") := by
  refine ⟨rfl, ?_, ?_⟩
  · intro d hd
    refine ⟨?_, ?_, ?_, ?_⟩
    · intro h1
      have hne : d ≠ "" := by
        rintro rfl
        exact absurd h1 (by decide)
      simp [addTimeSensitivityItem, hd, hne, h1]
    · intro h1 h2
      have hne : d ≠ "" := by
        rintro rfl
        exact absurd h2 (by decide)
      simp [addTimeSensitivityItem, hd, hne, h1, h2]
    · intro hne h1 h2
      simp [addTimeSensitivityItem, hd, hne, h1, h2]
    · intro hd0
      simp [addTimeSensitivityItem, hd, hd0]
  · intro b hb htrue
    simp [addTimeSensitivityItem, hb, htrue]

/-- Action item with the scenario deadline `本周五`. -/
def actHigh : ActionItem := ⟨"task", "A", PyVal.str "本周五", none, "d"⟩

/-- Action item with the scenario deadline `下周`. -/
def actMed : ActionItem := ⟨"task", "A", PyVal.str "下周", none, "d"⟩

/-- Action item with an empty deadline. -/
def actEmpty : ActionItem := ⟨"task", "A", PyVal.str "", none, "d"⟩

/-- Action item whose truthy non-string deadline raises on inspection. -/
def actBad : ActionItem := ⟨"task", "A", PyVal.nonstr true, none, "d"⟩

theorem c7_time_sensitivity_witness :
    (addTimeSensitivityItem actHigh).priority = some "high"
  ∧ (addTimeSensitivityItem actMed).priority = some "medium"
  ∧ addTimeSensitivityItem actEmpty = actEmpty
  ∧ (addTimeSensitivityItem actBad).priority = some "medium" := by
  refine ⟨?_, ?_, ?_, ?_⟩
  · exact ((c7_time_sensitivity demoDoc actHigh).2.1 "本周五" rfl).1 (by decide)
  · exact ((c7_time_sensitivity demoDoc actMed).2.1 "下周" rfl).2.1 (by decide) (by decide)
  · exact ((c7_time_sensitivity demoDoc actEmpty).2.1 "" rfl).2.2.2 rfl
  · exact (c7_time_sensitivity demoDoc actBad).2.2 true rfl rfl

theorem strStartsWith_map (f : Char → Char) :
    ∀ n h, strStartsWith n h = true → strStartsWith (n.map f) (h.map f) = true := by
  intro n
  induction n with
  | nil => intro h _; rfl
  | cons c cs ih =>
    intro h hh
    cases h with
    | nil => simp [strStartsWith] at hh
    | cons d ds =>
      simp only [strStartsWith, Bool.and_eq_true, decide_eq_true_eq] at hh
      obtain ⟨h1, h2⟩ := hh
      simp only [List.map_cons, strStartsWith, Bool.and_eq_true, decide_eq_true_eq]
      exact ⟨by rw [h1], ih ds h2⟩

theorem strContainsAux_map (f : Char → Char) (n : List Char) :
    ∀ h, strContainsAux n h = true → strContainsAux (n.map f) (h.map f) = true := by
  intro h
  induction h with
  | nil =>
    intro hh
    cases n with
    | nil => rfl
    | cons c cs => simp [strContainsAux, strStartsWith] at hh
  | cons c rest ih =>
    intro hh
    simp only [strContainsAux, Bool.or_eq_true] at hh
    simp only [List.map_cons, strContainsAux, Bool.or_eq_true]
    rcases hh with h1 | h2
    · exact Or.inl (by simpa using strStartsWith_map f n (c :: rest) h1)
    · exact Or.inr (ih h2)

theorem subStr_pyLower (w t : String) (hw : w.data.map Char.toLower = w.data)
    (h : subStr w t = true) : subStr w (pyLower t) = true := by
  have h2 := strContainsAux_map Char.toLower w.data t.data h
  rw [hw] at h2
  exact h2

/-- C8: meeting-type detection checks the fixed keyword sets in the
fixed order project_review, weekly_meeting, strategic_planning, the
first match winning, and falls back to general_meeting; in particular
any transcript containing 项目 — even one also containing 战略 —
classifies as project_review. -/
theorem c8_meeting_type_priority (t : String) :
    (subStr "项目" t = true → detect_meeting_type t = "project_review")
  ∧ ((["项目", "进度", "里程碑", "交付", "延期"].any fun w => subStr w (pyLower t)) = false →
      (["本周", "下周", "例会", "日常工作"].any fun w => subStr w (pyLower t)) = true →
      detect_meeting_type t = "weekly_meeting")
  ∧ ((["项目", "进度", "里程碑", "交付", "延期"].any fun w => subStr w (pyLower t)) = false →
      (["本周", "下周", "例会", "日常工作"].any fun w => subStr w (pyLower t)) = false →
      (["战略", "规划", "目标", "投资", "方向"].any fun w => subStr w (pyLower t)) = true →
      detect_meeting_type t = "strategic_planning")
  ∧ ((["项目", "进度", "里程碑", "交付", "延期"].any fun w => subStr w (pyLower t)) = false →
      (["本周", "下周", "例会", "日常工作"].any fun w => subStr w (pyLower t)) = false →
      (["战略", "规划", "目标", "投资", "方向"].any fun w => subStr w (pyLower t)) = false →
      detect_meeting_type t = "general_meeting") := by
  refine ⟨?_, ?_, ?_, ?_⟩
  · intro h
    have h2 : subStr "项目" (pyLower t) = true := subStr_pyLower "项目" t (by decide) h
    have h3 : (["项目", "进度", "里程碑", "交付", "延期"].any
        fun w => subStr w (pyLower t)) = true :=
      List.any_eq_true.mpr ⟨"项目", by simp, h2⟩
    simp [detect_meeting_type, h3]
  · intro h1 h2
    simp [detect_meeting_type, h1, h2]
  · intro h1 h2 h3
    simp [detect_meeting_type, h1, h2, h3]
  · intro h1 h2 h3
    simp [detect_meeting_type, h1, h2, h3]

theorem c8_meeting_type_priority_witness :
    detect_meeting_type "讨论项目和战略" = "project_review" :=
  (c8_meeting_type_priority "讨论项目和战略").1 (by decide)

theorem decisionScore_le_one (mt : String) (htpl : meeting_templates mt = none)
    (content : String) : decisionScore mt content ≤ 1 := by
  simp only [decisionScore, htpl]
  split <;> simp

/-- C10: for a meeting type with no template entry (such as
general_meeting), no decision content can score above 1, so
`post_process_summary` never tags any decision urgency high and leaves
the document's `key_decisions` field exactly as it came in (never adds
one). -/
theorem c10_nontemplate_no_high_urgency (s : SummaryDocument) (ctx : MeetingContext)
    (h1 : ctx.meeting_type ≠ "project_review")
    (h2 : ctx.meeting_type ≠ "weekly_meeting")
    (h3 : ctx.meeting_type ≠ "strategic_planning") :
    (∀ content : String, decisionScore ctx.meeting_type content ≤ 1)
  ∧ (∀ d ∈ (post_process_summary s ctx).decisions, d.urgency ≠ some "high")
  ∧ (post_process_summary s ctx).key_decisions = s.key_decisions := by
  have htpl : meeting_templates ctx.meeting_type = none := by
    simp [meeting_templates, h1, h2, h3]
  have hsc : ∀ content, decisionScore ctx.meeting_type content ≤ 1 :=
    fun c => decisionScore_le_one _ htpl c
  have hfilter : ∀ l : List Decision,
      (l.filter fun d => 2 ≤ decisionScore ctx.meeting_type d.content) = [] := by
    intro l
    induction l with
    | nil => rfl
    | cons d rest ih =>
      have : ¬ (2 ≤ decisionScore ctx.meeting_type d.content) := by
        have := hsc d.content
        omega
      simp [List.filter_cons, this, ih]
  refine ⟨hsc, ?_, ?_⟩
  · intro d hd
    have hdec : (post_process_summary s ctx).decisions
        = s.decisions.map (scoreDecision ctx.meeting_type) := by
      simp [post_process_summary, add_time_sensitivity, adjust_priority_by_meeting_type,
            identify_key_decisions_eq, hfilter]
    rw [hdec] at hd
    obtain ⟨d0, hd0, rfl⟩ := List.mem_map.mp hd
    have hlt : ¬ (2 ≤ decisionScore ctx.meeting_type d0.content) := by
      have := hsc d0.content
      omega
    by_cases hone : 1 ≤ decisionScore ctx.meeting_type d0.content
    · simp [scoreDecision, hlt, hone]
    · simp [scoreDecision, hlt, hone]
  · simp [post_process_summary, add_time_sensitivity, adjust_priority_by_meeting_type,
          identify_key_decisions_eq, hfilter]

/-- A context classified as a general meeting. -/
def ctxGeneral : MeetingContext := ⟨"general_meeting", "general", [], 60, []⟩

theorem c10_nontemplate_no_high_urgency_witness :
    (post_process_summary exampleSummary ctxGeneral).key_decisions
      = exampleSummary.key_decisions :=
  (c10_nontemplate_no_high_urgency exampleSummary ctxGeneral
    (by decide) (by decide) (by decide)).2.2
